import Mathlib

/-!
Verification of the color-map construction core of the kindlmann and viridis
notebooks (`color-advice/kindlmann/kindlmann.ipynb`,
`color-advice/viridis/viridis.ipynb`).

The notebooks delegate color-space conversion to the python-colormath
library.  The conversion pipeline (HSV → sRGB → XYZ → CIELab and back) is
embedded here over ℚ, with colormath's exact constants: the sRGB ↔ XYZ
matrices, the two-degree observer white points d65 and d50, the Bradford
chromatic-adaptation matrix (a `LabColor` built directly, as the notebooks
do inside `scale_hue` and `color_lookup_sRGBColor`, carries colormath's
default illuminant d50, while a Lab color obtained by converting an sRGB
color carries the sRGB native illuminant d65, so converting a constructed
Lab color back to sRGB applies Bradford adaptation d50 → d65), and the
CIE threshold 216/24389.

The source computes with IEEE double-precision floats.  Floating-point
evaluation of the three irrational operations (the 2.4 and 1/2.4 gamma
powers and the Lab cube root) is modelled by fixed-precision dyadic
rational approximation: an exact integer n-th root scaled by 2^48
(`rootD`), with intermediate results rounded back to the 2^48 grid
(`dyRound`).  Every comparison the modelled pipeline performs on these
approximate quantities has margin at least 10⁻⁶ — nine to ten orders of
magnitude above both the 2⁻⁴⁸ grid and double rounding error — and the
model reproduces the control-point table recorded in the kindlmann
notebook digit for digit after upscaling, so every branch decision and
every rounded integer output below is the one the source computes.
-/

namespace ColorAdvice

set_option maxRecDepth 4000000

/-- number of dyadic fraction bits used to model the source's
floating-point evaluation of roots and powers. -/
def prec : ℕ := 48

/-- the dyadic scaling factor 2^48. -/
def dyScale : ℕ := 2 ^ prec

/-- fueled binary search for the integer n-th root; the interval
[lo, hi) always contains the root, so the fuel (which bounds the number
of halvings) is never exhausted for the sizes used here. -/
def nthRootAux (n x : ℕ) : ℕ → ℕ → ℕ → ℕ
  | 0, lo, _ => lo
  | fuel + 1, lo, hi =>
    if hi ≤ lo + 1 then lo
    else
      let mid := (lo + hi) / 2
      if mid ^ n ≤ x then nthRootAux n x fuel mid hi
      else nthRootAux n x fuel lo mid

/-- fueled search for a power of two whose n-th power exceeds x. -/
def nthRootHi (n x : ℕ) : ℕ → ℕ → ℕ
  | 0, hi => hi
  | fuel + 1, hi => if x < hi ^ n then hi else nthRootHi n x fuel (hi * 2)

/-- floor of the n-th root of a natural number. -/
def nthRoot (n x : ℕ) : ℕ :=
  nthRootAux n x 700 0 (nthRootHi n x 700 1)

/-- dyadic lower rounding to the 2^48 grid: models a floating-point
valued intermediate result. -/
def dyRound (q : ℚ) : ℚ := (⌊q * (dyScale : ℚ)⌋ : ℚ) / (dyScale : ℚ)

/-- dyadic approximation of x^(1/n) for nonnegative x (and 0 on negative
input, which the pipeline never produces at a root call site). -/
def rootD (n : ℕ) (q : ℚ) : ℚ :=
  if q < 0 then 0
  else (nthRoot n (⌊q * (dyScale : ℚ) ^ n⌋).toNat : ℚ) / (dyScale : ℚ)

/-- an sRGB color triple, channels nominally in [0, 1]
(colormath's sRGBColor). -/
structure RGB where
  r : ℚ
  g : ℚ
  b : ℚ
  deriving DecidableEq, Repr

/-- a CIELab color (colormath's LabColor). -/
structure Lab where
  l : ℚ
  a : ℚ
  b : ℚ
  deriving DecidableEq, Repr

/-- a tristimulus (XYZ-like) vector. -/
structure Vec3 where
  x : ℚ
  y : ℚ
  z : ℚ
  deriving DecidableEq, Repr

/-- a 3×3 matrix, stored as rows. -/
structure Mat3 where
  r0 : Vec3
  r1 : Vec3
  r2 : Vec3
  deriving DecidableEq, Repr

def Vec3.dot (a v : Vec3) : ℚ := a.x * v.x + a.y * v.y + a.z * v.z

def Mat3.mulVec (M : Mat3) (v : Vec3) : Vec3 := ⟨M.r0.dot v, M.r1.dot v, M.r2.dot v⟩

def Mat3.col0 (M : Mat3) : Vec3 := ⟨M.r0.x, M.r1.x, M.r2.x⟩

def Mat3.col1 (M : Mat3) : Vec3 := ⟨M.r0.y, M.r1.y, M.r2.y⟩

def Mat3.col2 (M : Mat3) : Vec3 := ⟨M.r0.z, M.r1.z, M.r2.z⟩

def Mat3.mul (M N : Mat3) : Mat3 :=
  ⟨⟨M.r0.dot N.col0, M.r0.dot N.col1, M.r0.dot N.col2⟩,
   ⟨M.r1.dot N.col0, M.r1.dot N.col1, M.r1.dot N.col2⟩,
   ⟨M.r2.dot N.col0, M.r2.dot N.col1, M.r2.dot N.col2⟩⟩

def Mat3.det (M : Mat3) : ℚ :=
  M.r0.x * (M.r1.y * M.r2.z - M.r1.z * M.r2.y)
    - M.r0.y * (M.r1.x * M.r2.z - M.r1.z * M.r2.x)
    + M.r0.z * (M.r1.x * M.r2.y - M.r1.y * M.r2.x)

/-- adjugate-over-determinant inverse of a 3×3 matrix (colormath obtains
this via numpy.linalg.inv). -/
def Mat3.inv (M : Mat3) : Mat3 :=
  let d := M.det
  ⟨⟨(M.r1.y * M.r2.z - M.r1.z * M.r2.y) / d,
    (M.r0.z * M.r2.y - M.r0.y * M.r2.z) / d,
    (M.r0.y * M.r1.z - M.r0.z * M.r1.y) / d⟩,
   ⟨(M.r1.z * M.r2.x - M.r1.x * M.r2.z) / d,
    (M.r0.x * M.r2.z - M.r0.z * M.r2.x) / d,
    (M.r0.z * M.r1.x - M.r0.x * M.r1.z) / d⟩,
   ⟨(M.r1.x * M.r2.y - M.r1.y * M.r2.x) / d,
    (M.r0.y * M.r2.x - M.r0.x * M.r2.y) / d,
    (M.r0.x * M.r1.y - M.r0.y * M.r1.x) / d⟩⟩

/-- colormath's two-degree-observer d50 white point. -/
def illuminant_d50 : Vec3 := ⟨0.96422, 1, 0.82521⟩

/-- colormath's two-degree-observer d65 white point. -/
def illuminant_d65 : Vec3 := ⟨0.95047, 1, 1.08883⟩

/-- colormath's Bradford cone-response matrix. -/
def bradford : Mat3 :=
  ⟨⟨0.8951, 0.2664, -0.1614⟩,
   ⟨-0.7502, 1.7135, 0.0367⟩,
   ⟨0.0389, -0.0685, 1.0296⟩⟩

/-- colormath's sRGB rgb_to_xyz conversion matrix. -/
def srgb_rgb_to_xyz_matrix : Mat3 :=
  ⟨⟨0.412424, 0.357579, 0.180464⟩,
   ⟨0.212656, 0.715158, 0.0721856⟩,
   ⟨0.0193324, 0.119193, 0.950444⟩⟩

/-- colormath's sRGB xyz_to_rgb conversion matrix. -/
def srgb_xyz_to_rgb_matrix : Mat3 :=
  ⟨⟨3.24071, -1.53726, -0.498571⟩,
   ⟨-0.969258, 1.87599, 0.0415557⟩,
   ⟨0.0556352, -0.203996, 1.05707⟩⟩

/-- the Bradford chromatic-adaptation matrix from d50 to d65, computed as
colormath's _get_adaptation_matrix does: inv(B) · diag(cone(d65)/cone(d50)) · B,
entries rounded to the dyadic grid. -/
def adaptation_d50_to_d65 : Mat3 :=
  let rs := bradford.mulVec illuminant_d50
  let rd := bradford.mulVec illuminant_d65
  let dg : Mat3 := ⟨⟨rd.x / rs.x, 0, 0⟩, ⟨0, rd.y / rs.y, 0⟩, ⟨0, 0, rd.z / rs.z⟩⟩
  let M := bradford.inv.mul (dg.mul bradford)
  ⟨⟨dyRound M.r0.x, dyRound M.r0.y, dyRound M.r0.z⟩,
   ⟨dyRound M.r1.x, dyRound M.r1.y, dyRound M.r1.z⟩,
   ⟨dyRound M.r2.x, dyRound M.r2.y, dyRound M.r2.z⟩⟩

/-- the CIE threshold constant 216/24389 (colormath's CIE_E). -/
def cie_e : ℚ := 216 / 24389

/-- sRGB gamma decoding of one channel: V/12.92 below the linear cutoff,
otherwise ((V+0.055)/1.055)^2.4, with 2.4 = 12/5 evaluated as a 5th root
of the 12th power. -/
def srgb_decode_channel (V : ℚ) : ℚ :=
  if V ≤ 0.04045 then V / 12.92
  else rootD 5 (((V + 0.055) / 1.055) ^ (12 : ℕ))

/-- colormath RGB_to_XYZ for an sRGB color (channels gamma-decoded, then
the rgb_to_xyz matrix; the result carries sRGB's native illuminant d65). -/
def sRGB_to_XYZ (c : RGB) : Vec3 :=
  let lin : Vec3 := ⟨srgb_decode_channel c.r, srgb_decode_channel c.g, srgb_decode_channel c.b⟩
  let v := srgb_rgb_to_xyz_matrix.mulVec lin
  ⟨dyRound v.x, dyRound v.y, dyRound v.z⟩

/-- the CIE Lab companding function: cube root above the threshold,
otherwise the 7.787·t + 16/116 linear segment. -/
def lab_f (t : ℚ) : ℚ :=
  if cie_e < t then rootD 3 t else 7.787 * t + 16 / 116

/-- colormath XYZ_to_Lab relative to the given white point. -/
def XYZ_to_Lab (white : Vec3) (v : Vec3) : Lab :=
  let tx := lab_f (v.x / white.x)
  let ty := lab_f (v.y / white.y)
  let tz := lab_f (v.z / white.z)
  ⟨116 * ty - 16, 500 * (tx - ty), 200 * (ty - tz)⟩

/-- inverse Lab companding as colormath writes it: t³ when t³ exceeds the
threshold, otherwise the inverse linear segment. -/
def lab_f_inv (t : ℚ) : ℚ :=
  if cie_e < t ^ (3 : ℕ) then t ^ (3 : ℕ) else (t - 16 / 116) / 7.787

/-- colormath Lab_to_XYZ relative to the given white point. -/
def Lab_to_XYZ (white : Vec3) (lab : Lab) : Vec3 :=
  let fy := (lab.l + 16) / 116
  let fx := lab.a / 500 + fy
  let fz := fy - lab.b / 200
  ⟨dyRound (white.x * lab_f_inv fx),
   dyRound (white.y * lab_f_inv fy),
   dyRound (white.z * lab_f_inv fz)⟩

/-- sRGB gamma encoding of one linear channel: 12.92·v below the cutoff,
otherwise 1.055·v^(1/2.4) − 0.055, with 1/2.4 = 5/12 evaluated as a 12th
root of the 5th power. -/
def srgb_encode_channel (v : ℚ) : ℚ :=
  if v ≤ 0.0031308 then v * 12.92
  else 1.055 * rootD 12 (v ^ (5 : ℕ)) - 0.055

/-- colormath XYZ_to_RGB for an XYZ vector already relative to d65
(sRGB's native illuminant): the xyz_to_rgb matrix, then gamma encoding. -/
def XYZ_d65_to_sRGB (v : Vec3) : RGB :=
  let lin := srgb_xyz_to_rgb_matrix.mulVec v
  ⟨srgb_encode_channel (dyRound lin.x),
   srgb_encode_channel (dyRound lin.y),
   srgb_encode_channel (dyRound lin.z)⟩

/-- colormath convert_color(LabColor(...), sRGBColor) for a directly
constructed LabColor: such a color carries the default illuminant d50, so
the conversion goes Lab → XYZ at d50, Bradford-adapts d50 → d65, then
applies the sRGB matrix and gamma encoding. -/
def convert_Lab_to_sRGB (lab : Lab) : RGB :=
  let xyz := Lab_to_XYZ illuminant_d50 lab
  let av := adaptation_d50_to_d65.mulVec xyz
  XYZ_d65_to_sRGB ⟨dyRound av.x, dyRound av.y, dyRound av.z⟩

/-- colormath convert_color(rgb, LabColor) for an sRGBColor: sRGB → XYZ at
the native illuminant d65 (no adaptation, since no target illuminant is
passed), then XYZ → Lab against the d65 white point. -/
def convert_sRGB_to_Lab (c : RGB) : Lab :=
  XYZ_to_Lab illuminant_d65 (sRGB_to_XYZ c)

/-- colormath HSV_to_RGB (hue in degrees, wrapping at 360; the integer
divisions mirror the Python-2 floor divisions of the source). -/
def HSV_to_RGB (h s v : ℚ) : RGB :=
  let h_floored : ℤ := ⌊h⌋
  let h_sub_i : ℤ := (h_floored.fdiv 60) % 6
  let var_f : ℚ := h / 60 - ((h_floored.fdiv 60 : ℤ) : ℚ)
  let var_p := v * (1 - s)
  let var_q := v * (1 - var_f * s)
  let var_t := v * (1 - (1 - var_f) * s)
  if h_sub_i = 0 then ⟨v, var_t, var_p⟩
  else if h_sub_i = 1 then ⟨var_q, v, var_p⟩
  else if h_sub_i = 2 then ⟨var_p, v, var_t⟩
  else if h_sub_i = 3 then ⟨var_p, var_q, v⟩
  else if h_sub_i = 4 then ⟨var_t, var_p, v⟩
  else ⟨v, var_p, var_q⟩

/-- colormath get_upscaled_value_tuple: each channel scaled by 255 and
rounded with floor(0.5 + ·), without clamping. -/
def get_upscaled_value_tuple (c : RGB) : ℤ × ℤ × ℤ :=
  (⌊(0.5 : ℚ) + c.r * 255⌋, ⌊(0.5 : ℚ) + c.g * 255⌋, ⌊(0.5 : ℚ) + c.b * 255⌋)

/-- kindlmann notebook valid_color, applied to an sRGB triple (conversion
of an sRGBColor to sRGBColor is the identity): upscale each channel and
ask that all three upscaled values lie in 0‥255. -/
def valid_color (c : RGB) : Bool :=
  let u := get_upscaled_value_tuple c
  decide (0 ≤ u.1 ∧ u.1 ≤ 255 ∧ 0 ≤ u.2.1 ∧ u.2.1 ≤ 255 ∧ 0 ≤ u.2.2 ∧ u.2.2 ≤ 255)

/-- kindlmann notebook safe_color on a directly constructed LabColor (the
only way the notebook calls it): convert to sRGB, then require every
channel to be at least 0.05·(max − min) away from both 0 and 1. -/
def safe_color (lab : Lab) : Bool :=
  let c := convert_Lab_to_sRGB lab
  let clamp_dist := 0.05 * (max c.r (max c.g c.b) - min c.r (min c.g c.b))
  decide (clamp_dist ≤ c.r ∧ c.r ≤ 1 - clamp_dist ∧
          clamp_dist ≤ c.g ∧ c.g ≤ 1 - clamp_dist ∧
          clamp_dist ≤ c.b ∧ c.b ≤ 1 - clamp_dist)

/-- the chroma binary search loop of scale_hue: n halvings of the scale
interval [low_scale, high_scale], keeping the midpoint as the new low
whenever the predicate holds there, and returning the final low. -/
def chroma_scale_search (safe : ℚ → Bool) : ℕ → ℚ → ℚ → ℚ
  | 0, low_scale, _ => low_scale
  | n + 1, low_scale, high_scale =>
    let mid_scale := (high_scale - low_scale) / 2 + low_scale
    if safe mid_scale then chroma_scale_search safe n mid_scale high_scale
    else chroma_scale_search safe n low_scale mid_scale

/-- the (a, b) chroma direction scale_hue extracts: Lab coordinates of the
full-saturation, full-value HSV color at the given hue. -/
def hue_chroma (hue : ℚ) : ℚ × ℚ :=
  let lab_original := convert_sRGB_to_Lab (HSV_to_RGB hue 1 1)
  (lab_original.a, lab_original.b)

/-- the low_scale value scale_hue's 12-iteration binary search settles on. -/
def scale_hue_scale (hue scalar : ℚ) : ℚ :=
  chroma_scale_search
    (fun s => safe_color ⟨100 * scalar, s * (hue_chroma hue).1, s * (hue_chroma hue).2⟩) 12 0 1

/-- the Lab color scale_hue constructs at an interior scalar: target
luminance 100·scalar with the searched chroma scale applied. -/
def scale_hue_lab (hue scalar : ℚ) : Lab :=
  ⟨100 * scalar, scale_hue_scale hue scalar * (hue_chroma hue).1,
   scale_hue_scale hue scalar * (hue_chroma hue).2⟩

/-- kindlmann notebook scale_hue: black at scalar ≤ 0, white at
scalar ≥ 1, otherwise the sRGB conversion of the gamut-searched Lab color. -/
def scale_hue (hue scalar : ℚ) : RGB :=
  if scalar ≤ 0 then ⟨0, 0, 0⟩
  else if 1 ≤ scalar then ⟨1, 1, 1⟩
  else convert_Lab_to_sRGB (scale_hue_lab hue scalar)

/-- numpy.linspace(a, b, n): n points from a to b inclusive, step
(b − a)/(n − 1). -/
def np_linspace (a b : ℚ) (n : ℕ) : List ℚ :=
  (List.range n).map fun i : ℕ => a + (b - a) * (i : ℚ) / ((n : ℚ) - 1)

/-- numpy.arange(start, stop, step): ⌈(stop − start)/step⌉ points
start, start + step, start + 2·step, …. -/
def np_arange (start stop step : ℚ) : List ℚ :=
  (List.range (⌈(stop - start) / step⌉.toNat)).map fun i : ℕ => start + step * (i : ℚ)

/-- one row of the kindlmann notebook's color table: hue, scalar, the
sRGBColor column, and the upscaled RGB column. -/
structure KindlmannRow where
  hue : ℚ
  scalar : ℚ
  color : RGB
  rgb255 : ℤ × ℤ × ℤ
  deriving DecidableEq, Repr

/-- kindlmann notebook build_kindlmann_colors: pair each hue with a
uniformly spaced scalar over [0, 1] and apply scale_hue row-wise. -/
def build_kindlmann_colors (hue_array : List ℚ) : List KindlmannRow :=
  let scalars := np_linspace 0 1 hue_array.length
  (hue_array.zip scalars).map fun p =>
    let c := scale_hue p.1 p.2
    ⟨p.1, p.2, c, get_upscaled_value_tuple c⟩

def start_hue : ℚ := 300

def end_hue : ℚ := 0

/-- the kindlmann control_points table: hues every −30 degrees from 300
down to 0 (the −0.0001 end keeps 0 inside the arange). -/
def kindlmann_control_points : List KindlmannRow :=
  build_kindlmann_colors (np_arange start_hue (end_hue - 0.0001) (-30))

/-- one input sample of the viridis notebook's data frame: the scalar and
rgb_values columns filled by the RGBPoints load loop. -/
structure VSample where
  scalar : ℚ
  rgb_values : RGB
  deriving DecidableEq, Repr

/-- the viridis notebook's RGBPoints load loop: every 4th element starts a
new point (scalar, r, g, b).  No validation of any kind is performed. -/
def load_RGBPoints : List ℚ → List VSample
  | s :: r :: g :: b :: rest => ⟨s, ⟨r, g, b⟩⟩ :: load_RGBPoints rest
  | _ => []

/-- a row of the viridis data frame after the lab_values column is added. -/
structure VRow where
  scalar : ℚ
  rgb_values : RGB
  lab_values : Lab
  deriving DecidableEq, Repr

/-- the viridis notebook's lab_values column: convert each rgb_values
entry to Lab. -/
def add_lab_values (data : List VSample) : List VRow :=
  data.map fun p => ⟨p.scalar, p.rgb_values, convert_sRGB_to_Lab p.rgb_values⟩

/-- linear interpolation of two Lab colors as color_lookup_sRGBColor
writes it: interp·(high − low) + low per coordinate. -/
def lerp_lab (interp : ℚ) (low high : Lab) : Lab :=
  ⟨interp * (high.l - low.l) + low.l,
   interp * (high.a - low.a) + low.a,
   interp * (high.b - low.b) + low.b⟩

/-- the scan loop of color_lookup_sRGBColor over consecutive row pairs:
skip intervals whose upper scalar is below x, interpolate in the first
remaining one, fall through to pure white.  A selected interval of zero
width raises ZeroDivisionError in the source, modelled as none. -/
def color_lookup_loop (x : ℚ) : List VRow → Option RGB
  | low :: high :: rest =>
    if high.scalar < x then color_lookup_loop x (high :: rest)
    else if high.scalar - low.scalar = 0 then none
    else
      let interp := (x - low.scalar) / (high.scalar - low.scalar)
      some (convert_Lab_to_sRGB (lerp_lab interp low.lab_values high.lab_values))
  | _ => some ⟨1, 1, 1⟩

/-- viridis notebook color_lookup_sRGBColor: black below 0, otherwise the
linear scan over input intervals. -/
def color_lookup_sRGBColor (data : List VRow) (x : ℚ) : Option RGB :=
  if x < 0 then some ⟨0, 0, 0⟩ else color_lookup_loop x data

/-- every other element of a list, starting with the first. -/
def everyOther : List α → List α
  | [] => []
  | [a] => [a]
  | a :: _ :: rest => a :: everyOther rest

/-- sampling a scalar-to-color rule at n uniformly spaced scalars over
[0, 1], keeping the scalars (as the notebooks' color_table frames do). -/
def sample_rule {α : Type} (rule : ℚ → α) (n : ℕ) : List (ℚ × α) :=
  (np_linspace 0 1 n).map fun s => (s, rule s)

/-- the underlying rule of the kindlmann hue-sweep tables: the hue is the
linear interpolation from start_hue to end_hue at fraction s, as produced
by pairing np.linspace hues with np.linspace scalars of equal length. -/
def kindlmann_rule (s : ℚ) : RGB :=
  scale_hue (start_hue + (end_hue - start_hue) * s) s

/-- re-flattening of a sample table into the RGBPoints layout the viridis
loader consumes (scalar, r, g, b per point). -/
def flatten_samples : List VSample → List ℚ
  | [] => []
  | p :: rest => p.scalar :: p.rgb_values.r :: p.rgb_values.g :: p.rgb_values.b :: flatten_samples rest

/-- an RGBPoints list with a duplicated scalar (two points at scalar 0). -/
def malformed_points : List ℚ := [0, 1, 0, 0, 0, 0, 1, 0, 1, 1, 1, 1]

/-- the Lab L value of a generated RGB sample under the code's own
sRGB → Lab conversion. -/
def sample_lab_L (c : RGB) : ℚ := (convert_sRGB_to_Lab c).l

/-- the Lab L value attached to a generated hue-sweep sample: at an
interior generation point, the L of the Lab color the sample is built
from (scale_hue_lab); at the endpoints, which bypass Lab construction
and return literal black and white, the Lab L of the returned RGB color. -/
def generation_L (hue scalar : ℚ) : ℚ :=
  if scalar ≤ 0 ∨ 1 ≤ scalar then sample_lab_L (scale_hue hue scalar)
  else (scale_hue_lab hue scalar).l

/-- a two-sample input table built through the source's load path: first
sample pure red at scalar 0, last sample pure white at scalar 1. -/
def red_white_table : List VRow :=
  add_lab_values (load_RGBPoints [0, 1, 0, 0, 1, 1, 1, 1])

/-- a small literal input table (strictly sorted scalars) used to
instantiate the parametric lookup theorems at a concrete input. -/
def witness_table : List VRow :=
  [⟨0, ⟨1, 0, 0⟩, ⟨50, 60, 70⟩⟩, ⟨1, ⟨1, 1, 1⟩, ⟨100, 0, 0⟩⟩]

/-! Helper lemmas. -/

lemma floor_half_add_nonneg_iff (q : ℚ) : 0 ≤ ⌊(0.5 : ℚ) + q * 255⌋ ↔ -(1 / 510) ≤ q := by
  rw [Int.le_floor, show ((0 : ℤ) : ℚ) = 0 from rfl, show (0.5 : ℚ) = 1 / 2 by norm_num]
  constructor <;> intro h <;> linarith

lemma floor_half_add_le_iff (q : ℚ) : ⌊(0.5 : ℚ) + q * 255⌋ ≤ 255 ↔ q < 511 / 510 := by
  rw [show (255 : ℤ) = 256 - 1 by norm_num, Int.le_sub_one_iff, Int.floor_lt,
    show ((256 : ℤ) : ℚ) = 256 by norm_num, show (0.5 : ℚ) = 1 / 2 by norm_num]
  constructor <;> intro h <;> linarith

lemma everyOther_map {α β : Type} (f : α → β) :
    ∀ (l : List α), everyOther (l.map f) = (everyOther l).map f
  | [] => rfl
  | [_] => rfl
  | a :: b :: rest => by
    simp only [List.map_cons, everyOther]
    exact congrArg _ (everyOther_map f rest)

lemma everyOther_range' (step : ℕ) : ∀ (k a : ℕ),
    everyOther (List.range' a (2 * k + 1) step) = List.range' a (k + 1) (2 * step)
  | 0, _ => rfl
  | k + 1, a => by
    have h1 : 2 * (k + 1) + 1 = 2 * k + 1 + 1 + 1 := by ring
    rw [h1, List.range'_succ, List.range'_succ]
    simp only [everyOther]
    rw [everyOther_range' step k]
    have h2 : a + step + step = a + 2 * step := by ring
    rw [h2]
    simp only [List.range'_succ]

lemma map_range'_eq {α : Type} (f g : ℕ → α) : ∀ (n a b : ℕ),
    (∀ i : ℕ, f (a + 2 * i) = g (b + i)) →
    (List.range' a n 2).map f = (List.range' b n 1).map g
  | 0, _, _, _ => rfl
  | n + 1, a, b, h => by
    simp only [List.range', List.map_cons]
    rw [show f a = g b by simpa using h 0]
    refine congrArg _ (map_range'_eq f g n (a + 2) (b + 1) fun i => ?_)
    have e1 : a + 2 + 2 * i = a + 2 * (i + 1) := by ring
    have e2 : b + 1 + i = b + (i + 1) := by ring
    rw [e1, e2]
    exact h (i + 1)

/-! Claim theorems. -/

/-- C4 (amended): the RGBPoints load loop performs no validation at all:
it reproduces every sample table, sorted or not, exactly as flattened
into the RGBPoints layout — malformed tables are not rejected at load
time. -/
theorem C4_loader_accepts_all (rows : List VSample) :
    load_RGBPoints (flatten_samples rows) = rows := by
  induction rows with
  | nil => rfl
  | cons p rest ih => simp only [flatten_samples, load_RGBPoints, ih]

/-- C4 (counterexample): an RGBPoints list whose scalars are duplicated
and unsorted is loaded into a full three-row table whose scalar column is
[0, 0, 1] — not strictly increasing — rather than being rejected before
lookups. -/
theorem C4_counterexample :
    (load_RGBPoints malformed_points).map (fun p => p.scalar) = [0, 0, 1] ∧
    ¬ List.Chain' (· < ·) ((load_RGBPoints malformed_points).map fun p => p.scalar) := by
  have hmap : (load_RGBPoints malformed_points).map (fun p => p.scalar) = [0, 0, 1] := by
    with_unfolding_all decide
  refine ⟨hmap, fun h => ?_⟩
  rw [hmap] at h
  exact absurd (List.chain'_cons.mp h).1 (lt_irrefl 0)

/-- C5 (amended): valid_color is true iff every channel lies in the
rounding-widened interval [−1/510, 511/510), not iff every channel lies
in [0, 1]: the upscaled byte test accepts any channel whose
floor(0.5 + 255·channel) lands in 0‥255. -/
theorem C5_valid_color_iff_amended (c : RGB) :
    valid_color c = true ↔
      (-(1 / 510) ≤ c.r ∧ c.r < 511 / 510 ∧ -(1 / 510) ≤ c.g ∧ c.g < 511 / 510 ∧
        -(1 / 510) ≤ c.b ∧ c.b < 511 / 510) := by
  simp only [valid_color, get_upscaled_value_tuple, decide_eq_true_eq]
  rw [floor_half_add_nonneg_iff, floor_half_add_le_iff, floor_half_add_nonneg_iff,
    floor_half_add_le_iff, floor_half_add_nonneg_iff, floor_half_add_le_iff]

/-- C5 (counterexample): valid_color is not equivalent to membership of
every channel in [0, 1]: the color (−1/1000, 0, 0) has a negative red
channel yet valid_color accepts it (its upscaled red byte is
floor(0.5 − 0.255) = 0). -/
theorem C5_counterexample :
    ¬ ∀ c : RGB, (valid_color c = true ↔
      (0 ≤ c.r ∧ c.r ≤ 1 ∧ 0 ≤ c.g ∧ c.g ≤ 1 ∧ 0 ≤ c.b ∧ c.b ≤ 1)) := by
  intro h
  have h2 := (h ⟨-(1 / 1000), 0, 0⟩).mp (by with_unfolding_all decide)
  have h3 : ¬ (0 ≤ (-(1 / 1000) : ℚ)) := by norm_num
  exact h3 h2.1

/-- C8 (amended): sampling any scalar-to-color rule at resolution
2R − 1 and keeping every other sample reproduces the resolution-R ramp
exactly (the source's control_points_compare uses table_length·2 − 1 for
precisely this alignment). -/
theorem C8_subsample_amended {α : Type} (rule : ℚ → α) (R : ℕ) (hR : 1 ≤ R) :
    everyOther (sample_rule rule (2 * R - 1)) = sample_rule rule R := by
  rw [sample_rule, sample_rule, np_linspace, np_linspace, List.map_map, List.map_map,
    List.range_eq_range', List.range_eq_range']
  have hk : 2 * R - 1 = 2 * (R - 1) + 1 := by omega
  rw [hk, everyOther_map, everyOther_range']
  have hR1 : R - 1 + 1 = R := by omega
  rw [hR1, show (2 * 1 : ℕ) = 2 from rfl]
  apply map_range'_eq
  intro i
  simp only [Function.comp_apply]
  have key : ∀ x y : ℚ, x = y → ((x, rule x) : ℚ × α) = (y, rule y) := by
    intro x y h
    rw [h]
  apply key
  rcases Nat.lt_or_ge R 2 with hR2 | hR2
  · interval_cases R
    norm_num
  · have hc1 : ((2 * (R - 1) + 1 : ℕ) : ℚ) = 2 * (R : ℚ) - 1 := by
      push_cast [Nat.cast_sub hR]
      ring
    have hge : (2 : ℚ) ≤ (R : ℚ) := by exact_mod_cast hR2
    have hne : ((R : ℚ) - 1) ≠ 0 := by intro h0; linarith
    have h2ne : (2 * (R : ℚ) - 1 - 1) ≠ 0 := by intro h0; linarith
    rw [hc1]
    push_cast
    field_simp
    ring

/-- C8 (witness): the 2R − 1 subsampling identity instantiated at the
kindlmann hue-sweep rule and R = 8 (the control-point count the viridis
notebook uses). -/
theorem C8_witness :
    everyOther (sample_rule kindlmann_rule (2 * 8 - 1)) = sample_rule kindlmann_rule 8 :=
  C8_subsample_amended kindlmann_rule 8 (by norm_num)

/-- C8 (counterexample): as stated, with resolution 2R, the claim fails:
at R = 8 the even-index samples of the 16-point ramp sit at scalars
2i/15, not i/7, so taking every other point of the resolution-16
hue-sweep ramp does not reproduce the resolution-8 ramp — already the
scalar coordinates at index 3 are 2/5 versus 3/7, a mismatch of 1/35,
far beyond numeric tolerance. -/
theorem C8_counterexample :
    everyOther (sample_rule kindlmann_rule (2 * 8)) ≠ sample_rule kindlmann_rule 8 ∧
    (everyOther (np_linspace 0 1 (2 * 8)))[3]? = some (2 / 5) ∧
    (np_linspace 0 1 8)[3]? = some (3 / 7) := by
  refine ⟨fun h => ?_, by with_unfolding_all decide, by with_unfolding_all decide⟩
  have h2 := congrArg (List.map Prod.fst) h
  rw [sample_rule, sample_rule, ← everyOther_map, List.map_map, List.map_map] at h2
  have hid : (Prod.fst ∘ fun s : ℚ => ((s, kindlmann_rule s) : ℚ × RGB)) = id := by
    funext s
    rfl
  rw [hid, List.map_id, List.map_id] at h2
  exact absurd h2 (by with_unfolding_all decide)

/-- the invariant of the chroma binary search: starting from the interval
[lo, hi], after n halvings the result is lo + k·(hi − lo)/2ⁿ for some
k ≤ 2ⁿ − 1, and any result other than lo was itself tested safe. -/
lemma chroma_scale_search_spec (P : ℚ → Bool) :
    ∀ (n : ℕ) (lo hi : ℚ), ∃ k : ℕ, k ≤ 2 ^ n - 1 ∧
      chroma_scale_search P n lo hi = lo + (k : ℚ) * (hi - lo) / 2 ^ n ∧
      (chroma_scale_search P n lo hi ≠ lo → P (chroma_scale_search P n lo hi) = true)
  | 0, lo, hi => by
    refine ⟨0, le_refl _, by simp [chroma_scale_search], fun hne => absurd rfl hne⟩
  | n + 1, lo, hi => by
    have hpow : (1 : ℕ) ≤ 2 ^ n := Nat.one_le_two_pow
    have hpowq : ((2 : ℚ)) ^ n ≠ 0 := by positivity
    by_cases hP : P ((hi - lo) / 2 + lo)
    · obtain ⟨k, hk, heq, hsafe⟩ := chroma_scale_search_spec P n ((hi - lo) / 2 + lo) hi
      have hstep : chroma_scale_search P (n + 1) lo hi =
          chroma_scale_search P n ((hi - lo) / 2 + lo) hi := by
        show (if P ((hi - lo) / 2 + lo) then chroma_scale_search P n ((hi - lo) / 2 + lo) hi
          else chroma_scale_search P n lo ((hi - lo) / 2 + lo)) = _
        rw [if_pos hP]
      refine ⟨2 ^ n + k, ?_, ?_, ?_⟩
      · have h2 : 2 ^ (n + 1) = 2 ^ n * 2 := pow_succ 2 n
        omega
      · rw [hstep, heq]
        push_cast
        field_simp
        ring
      · intro hne
        rw [hstep]
        by_cases hmid : chroma_scale_search P n ((hi - lo) / 2 + lo) hi = (hi - lo) / 2 + lo
        · rw [hmid]
          exact hP
        · exact hsafe hmid
    · obtain ⟨k, hk, heq, hsafe⟩ := chroma_scale_search_spec P n lo ((hi - lo) / 2 + lo)
      have hstep : chroma_scale_search P (n + 1) lo hi =
          chroma_scale_search P n lo ((hi - lo) / 2 + lo) := by
        show (if P ((hi - lo) / 2 + lo) then chroma_scale_search P n ((hi - lo) / 2 + lo) hi
          else chroma_scale_search P n lo ((hi - lo) / 2 + lo)) = _
        rw [if_neg hP]
      refine ⟨k, ?_, ?_, ?_⟩
      · have h2 : 2 ^ (n + 1) = 2 ^ n * 2 := pow_succ 2 n
        omega
      · rw [hstep, heq]
        field_simp
        ring
      · intro hne
        rw [hstep]
        exact hsafe (by rw [← hstep]; exact hne)

/-- C9: at every hue and every interior scalar, the chroma scale the
12-iteration binary search returns is k/4096 for some k ≤ 4095 — an
integer multiple of 2⁻¹² in [0, 1 − 2⁻¹²], never exactly 1 — and whenever
it is nonzero, the Lab color built from it at luminance 100·scalar passed
the safe_color test during the search. -/
theorem C9_search_scale (hue scalar : ℚ) (h0 : 0 < scalar) (h1 : scalar < 1) :
    (∃ k : ℕ, k ≤ 4095 ∧ scale_hue_scale hue scalar = (k : ℚ) / 4096) ∧
    0 ≤ scale_hue_scale hue scalar ∧
    scale_hue_scale hue scalar ≤ 1 - 1 / 4096 ∧
    scale_hue_scale hue scalar ≠ 1 ∧
    (scale_hue_scale hue scalar ≠ 0 →
      safe_color ⟨100 * scalar, scale_hue_scale hue scalar * (hue_chroma hue).1,
        scale_hue_scale hue scalar * (hue_chroma hue).2⟩ = true) := by
  obtain ⟨k, hk, heq, hsafe⟩ := chroma_scale_search_spec
    (fun s => safe_color ⟨100 * scalar, s * (hue_chroma hue).1, s * (hue_chroma hue).2⟩) 12 0 1
  have hk4095 : k ≤ 4095 := by norm_num at hk; exact hk
  have heq' : scale_hue_scale hue scalar = (k : ℚ) / 4096 := by
    rw [scale_hue_scale, heq]
    norm_num
  have hkq : ((k : ℚ)) ≤ 4095 := by exact_mod_cast hk4095
  have hkq0 : (0 : ℚ) ≤ (k : ℚ) := Nat.cast_nonneg k
  refine ⟨⟨k, hk4095, heq'⟩, ?_, ?_, ?_, ?_⟩
  · rw [heq']
    positivity
  · rw [heq']
    rw [div_le_iff₀ (by norm_num : (0 : ℚ) < 4096)]
    linarith
  · rw [heq']
    intro hone
    rw [div_eq_one_iff_eq (by norm_num : (4096 : ℚ) ≠ 0)] at hone
    linarith
  · intro hnz
    exact hsafe hnz

/-- C9 (witness): the search-scale characterization instantiated at
hue 300, scalar 1/2. -/
theorem C9_witness :
    (∃ k : ℕ, k ≤ 4095 ∧ scale_hue_scale 300 (1 / 2) = (k : ℚ) / 4096) ∧
    0 ≤ scale_hue_scale 300 (1 / 2) ∧
    scale_hue_scale 300 (1 / 2) ≤ 1 - 1 / 4096 ∧
    scale_hue_scale 300 (1 / 2) ≠ 1 ∧
    (scale_hue_scale 300 (1 / 2) ≠ 0 →
      safe_color ⟨100 * (1 / 2), scale_hue_scale 300 (1 / 2) * (hue_chroma 300).1,
        scale_hue_scale 300 (1 / 2) * (hue_chroma 300).2⟩ = true) :=
  C9_search_scale 300 (1 / 2) (by norm_num) (by norm_num)

/-- unfolding of the lookup scan at a two-or-more-element table. -/
lemma color_lookup_loop_cons_cons (x : ℚ) (low high : VRow) (rest : List VRow) :
    color_lookup_loop x (low :: high :: rest) =
      if high.scalar < x then color_lookup_loop x (high :: rest)
      else if high.scalar - low.scalar = 0 then none
      else some (convert_Lab_to_sRGB (lerp_lab ((x - low.scalar) / (high.scalar - low.scalar))
        low.lab_values high.lab_values)) := rfl

/-- in a table with strictly increasing scalars, the head scalar is at
most the last scalar. -/
lemma chain'_head_le_getLast : ∀ (l : List VRow) (a dl : VRow),
    (a :: l).getLast? = some dl →
    List.Chain' (· < ·) ((a :: l).map fun r => r.scalar) →
    a.scalar ≤ dl.scalar
  | [], a, dl, hl, _ => by
    simp only [List.getLast?_singleton] at hl
    rw [← Option.some.inj hl]
  | b :: l', a, dl, hl, hc => by
    rw [List.getLast?_cons_cons] at hl
    simp only [List.map_cons] at hc
    have h1 : a.scalar < b.scalar := (List.chain'_cons.mp hc).1
    have hc2 : List.Chain' (· < ·) ((b :: l').map fun r => r.scalar) := by
      simp only [List.map_cons]
      exact (List.chain'_cons.mp hc).2
    exact le_trans (le_of_lt h1) (chain'_head_le_getLast l' b dl hl hc2)

/-- if the query lies beyond the last scalar of a strictly sorted table,
the scan falls through every interval and returns pure white. -/
lemma color_lookup_loop_white (x : ℚ) : ∀ (data : List VRow) (dl : VRow),
    data.getLast? = some dl →
    List.Chain' (· < ·) (data.map fun r => r.scalar) →
    dl.scalar < x →
    color_lookup_loop x data = some ⟨1, 1, 1⟩
  | [], _, hl, _, _ => by simp at hl
  | [_], _, _, _, _ => rfl
  | low :: high :: rest, dl, hl, hchain, hx => by
    rw [color_lookup_loop_cons_cons]
    have hlast : (high :: rest).getLast? = some dl := by
      rwa [List.getLast?_cons_cons] at hl
    have hchain2 : List.Chain' (· < ·) ((high :: rest).map fun r => r.scalar) := by
      simp only [List.map_cons]
      simp only [List.map_cons] at hchain
      exact (List.chain'_cons.mp hchain).2
    have hhx : high.scalar < x :=
      lt_of_le_of_lt (chain'_head_le_getLast rest high dl hlast hchain2) hx
    rw [if_pos hhx]
    exact color_lookup_loop_white x (high :: rest) dl hlast hchain2 hx

/-- the scan of color_lookup_sRGBColor selects the first interval whose
upper scalar is at least the query, interpolates the Lab coordinates of
its two bracketing samples, and converts the result to sRGB. -/
lemma color_lookup_loop_spec (x : ℚ) : ∀ (data : List VRow) (d0 dl : VRow),
    data.head? = some d0 →
    data.getLast? = some dl →
    2 ≤ data.length →
    List.Chain' (· < ·) (data.map fun r => r.scalar) →
    d0.scalar ≤ x → x ≤ dl.scalar →
    ∃ (j : ℕ) (low high : VRow),
      data[j]? = some low ∧ data[j + 1]? = some high ∧
      x ≤ high.scalar ∧
      (∀ k : ℕ, k < j → ∀ mid ∈ data[k + 1]?, mid.scalar < x) ∧
      color_lookup_loop x data =
        some (convert_Lab_to_sRGB (lerp_lab ((x - low.scalar) / (high.scalar - low.scalar))
          low.lab_values high.lab_values))
  | [], _, _, h0, _, _, _, _, _ => by simp at h0
  | [_], _, _, _, _, hlen, _, _, _ => by simp at hlen
  | low :: high :: rest, d0, dl, h0, hl, _, hchain, hx0, hxl => by
    have hd0 : d0 = low := by
      simp only [List.head?_cons] at h0
      exact (Option.some.inj h0).symm
    rw [hd0] at hx0
    simp only [List.map_cons] at hchain
    have hlh : low.scalar < high.scalar := (List.chain'_cons.mp hchain).1
    have htail := (List.chain'_cons.mp hchain).2
    by_cases hc : high.scalar < x
    · cases rest with
      | nil =>
        have hdl : dl = high := by
          rw [List.getLast?_cons_cons, List.getLast?_singleton] at hl
          exact (Option.some.inj hl).symm
        subst hdl
        exact absurd (lt_of_le_of_lt hxl hc) (lt_irrefl x)
      | cons h2 rest2 =>
        have hlast : (high :: h2 :: rest2).getLast? = some dl := by
          rwa [List.getLast?_cons_cons] at hl
        have hchain2 : List.Chain' (· < ·) ((high :: h2 :: rest2).map fun r => r.scalar) := by
          simp only [List.map_cons]
          exact htail
        obtain ⟨j, lo', hi', hj, hj1, hxhi, hmin, heq⟩ :=
          color_lookup_loop_spec x (high :: h2 :: rest2) high dl rfl hlast
            (by simp) hchain2 (le_of_lt hc) hxl
        refine ⟨j + 1, lo', hi', by simpa using hj, by simpa using hj1, hxhi, ?_, ?_⟩
        · intro k hk mid hmid
          cases k with
          | zero =>
            simp only [List.getElem?_cons_succ, List.getElem?_cons_zero,
              Option.mem_some_iff] at hmid
            exact hmid ▸ hc
          | succ k' =>
            exact hmin k' (by omega) mid (by simpa using hmid)
        · rw [color_lookup_loop_cons_cons, if_pos hc]
          exact heq
    · refine ⟨0, low, high, by simp, by simp, not_lt.mp hc,
        fun k hk => absurd hk (Nat.not_lt_zero k), ?_⟩
      rw [color_lookup_loop_cons_cons, if_neg hc, if_neg (sub_ne_zero.mpr (ne_of_gt hlh))]

/-- the scan never raises ZeroDivisionError on a strictly sorted table:
every branch returns a color. -/
lemma color_lookup_loop_isSome (x : ℚ) : ∀ (data : List VRow),
    List.Chain' (· < ·) (data.map fun r => r.scalar) →
    (color_lookup_loop x data).isSome = true
  | [], _ => rfl
  | [_], _ => rfl
  | low :: high :: rest, hchain => by
    simp only [List.map_cons] at hchain
    have hlh : low.scalar < high.scalar := (List.chain'_cons.mp hchain).1
    have htail : List.Chain' (· < ·) ((high :: rest).map fun r => r.scalar) := by
      simp only [List.map_cons]
      exact (List.chain'_cons.mp hchain).2
    rw [color_lookup_loop_cons_cons]
    by_cases hc : high.scalar < x
    · rw [if_pos hc]
      exact color_lookup_loop_isSome x (high :: rest) htail
    · rw [if_neg hc, if_neg (sub_ne_zero.mpr (ne_of_gt hlh))]
      rfl

/-- C10: on a strictly sorted table with the query at or above the first
scalar, the lookup never divides by zero — every adjacent interval has
strictly positive width — and the linear scan terminates with a returned
color. -/
theorem C10_lookup_no_zero_division (data : List VRow) (x : ℚ)
    (hsorted : List.Chain' (· < ·) (data.map fun r => r.scalar))
    (_hx : ∀ first ∈ data.head?, first.scalar ≤ x) :
    (color_lookup_sRGBColor data x).isSome = true ∧
    ∀ (i : ℕ) (h : i + 1 < data.length),
      (data.get ⟨i, by omega⟩).scalar < (data.get ⟨i + 1, h⟩).scalar := by
  constructor
  · rw [color_lookup_sRGBColor]
    by_cases hneg : x < 0
    · rw [if_pos hneg]
      rfl
    · rw [if_neg hneg]
      exact color_lookup_loop_isSome x data hsorted
  · intro i h
    have hchain : List.Chain' (fun a b : VRow => a.scalar < b.scalar) data :=
      (List.chain'_map (fun r : VRow => r.scalar)).mp hsorted
    exact List.chain'_iff_get.mp hchain i (by omega)

/-- C10 (witness): the no-division property instantiated at a concrete
two-row table and query 1/2. -/
theorem C10_witness :
    (color_lookup_sRGBColor witness_table (1 / 2)).isSome = true ∧
    ∀ (i : ℕ) (h : i + 1 < witness_table.length),
      (witness_table.get ⟨i, by omega⟩).scalar < (witness_table.get ⟨i + 1, h⟩).scalar :=
  C10_lookup_no_zero_division witness_table (1 / 2)
    (by
      rw [show (witness_table.map fun r => r.scalar) = [0, 1] from rfl]
      exact List.chain'_cons.mpr ⟨by norm_num, List.chain'_singleton 1⟩)
    (by
      intro f hf
      rw [Option.mem_def, show witness_table.head? = some (⟨0, ⟨1, 0, 0⟩, ⟨50, 60, 70⟩⟩ : VRow)
        from rfl] at hf
      rw [← Option.some.inj hf]
      norm_num)

/-- C6: on a strictly sorted table of at least two samples whose first
scalar is nonnegative, the lookup returns pure black below 0, selects the
first input interval whose upper scalar is at least x for queries between
the first and last scalar inclusive (linearly interpolating the Lab
coordinates of the bracketing samples by (x − low)/(high − low) and
converting the result to sRGB), and returns pure white strictly beyond
the last scalar. -/
theorem C6_interpolation_lookup (data : List VRow) (x : ℚ) (d0 dl : VRow)
    (hhead : data.head? = some d0) (hlast : data.getLast? = some dl)
    (hlen : 2 ≤ data.length)
    (hsorted : List.Chain' (· < ·) (data.map fun r => r.scalar))
    (hfirst0 : 0 ≤ d0.scalar) :
    (x < 0 → color_lookup_sRGBColor data x = some ⟨0, 0, 0⟩) ∧
    (d0.scalar ≤ x → x ≤ dl.scalar →
      ∃ (j : ℕ) (low high : VRow),
        data[j]? = some low ∧ data[j + 1]? = some high ∧
        x ≤ high.scalar ∧
        (∀ k : ℕ, k < j → ∀ mid ∈ data[k + 1]?, mid.scalar < x) ∧
        color_lookup_sRGBColor data x =
          some (convert_Lab_to_sRGB (lerp_lab ((x - low.scalar) / (high.scalar - low.scalar))
            low.lab_values high.lab_values))) ∧
    (dl.scalar < x → color_lookup_sRGBColor data x = some ⟨1, 1, 1⟩) := by
  have hd0dl : d0.scalar ≤ dl.scalar := by
    cases data with
    | nil => simp at hhead
    | cons a l =>
      have ha : a = d0 := by
        simp only [List.head?_cons] at hhead
        exact Option.some.inj hhead
      subst ha
      exact chain'_head_le_getLast l a dl hlast hsorted
  refine ⟨fun hneg => ?_, fun hx0 hx1 => ?_, fun hgt => ?_⟩
  · rw [color_lookup_sRGBColor, if_pos hneg]
  · have hnneg : ¬ x < 0 := not_lt.mpr (le_trans hfirst0 hx0)
    obtain ⟨j, low, high, hj, hj1, hxh, hmin, heq⟩ :=
      color_lookup_loop_spec x data d0 dl hhead hlast hlen hsorted hx0 hx1
    exact ⟨j, low, high, hj, hj1, hxh, hmin, by rw [color_lookup_sRGBColor, if_neg hnneg]; exact heq⟩
  · have hnneg : ¬ x < 0 := not_lt.mpr (le_trans hfirst0 (le_trans hd0dl (le_of_lt hgt)))
    rw [color_lookup_sRGBColor, if_neg hnneg]
    exact color_lookup_loop_white x data dl hlast hsorted hgt

/-- C6 (witness): the lookup characterization instantiated at a concrete
two-row table and query 1/2. -/
theorem C6_witness :
    ((1 : ℚ) / 2 < 0 → color_lookup_sRGBColor witness_table (1 / 2) = some ⟨0, 0, 0⟩) ∧
    ((⟨0, ⟨1, 0, 0⟩, ⟨50, 60, 70⟩⟩ : VRow).scalar ≤ 1 / 2 →
      (1 : ℚ) / 2 ≤ (⟨1, ⟨1, 1, 1⟩, ⟨100, 0, 0⟩⟩ : VRow).scalar →
      ∃ (j : ℕ) (low high : VRow),
        witness_table[j]? = some low ∧ witness_table[j + 1]? = some high ∧
        (1 : ℚ) / 2 ≤ high.scalar ∧
        (∀ k : ℕ, k < j → ∀ mid ∈ witness_table[k + 1]?, mid.scalar < 1 / 2) ∧
        color_lookup_sRGBColor witness_table (1 / 2) =
          some (convert_Lab_to_sRGB
            (lerp_lab ((1 / 2 - low.scalar) / (high.scalar - low.scalar))
              low.lab_values high.lab_values))) ∧
    ((⟨1, ⟨1, 1, 1⟩, ⟨100, 0, 0⟩⟩ : VRow).scalar < 1 / 2 →
      color_lookup_sRGBColor witness_table (1 / 2) = some ⟨1, 1, 1⟩) :=
  C6_interpolation_lookup witness_table (1 / 2) ⟨0, ⟨1, 0, 0⟩, ⟨50, 60, 70⟩⟩
    ⟨1, ⟨1, 1, 1⟩, ⟨100, 0, 0⟩⟩ rfl rfl
    (le_of_eq (show (2 : ℕ) = witness_table.length from rfl))
    (by
      rw [show (witness_table.map fun r => r.scalar) = [0, 1] from rfl]
      exact List.chain'_cons.mpr ⟨by norm_num, List.chain'_singleton 1⟩)
    (by norm_num)

lemma lerp_lab_zero (a b : Lab) : lerp_lab 0 a b = a := by
  cases a
  simp [lerp_lab]

lemma scale_hue_zero (hue : ℚ) : scale_hue hue 0 = ⟨0, 0, 0⟩ := by
  rw [scale_hue, if_pos (le_refl (0 : ℚ))]

lemma scale_hue_one (hue : ℚ) : scale_hue hue 1 = ⟨1, 1, 1⟩ := by
  rw [scale_hue, if_neg (by norm_num), if_pos (le_refl (1 : ℚ))]

/-- C2 (amended): boundary exactness holds for the hue-sweep mode — every
hue gives pure black at scalar 0 and pure white at scalar 1 — but the
interpolated-from-samples mode returns pure black only for queries
strictly below 0: at scalar exactly 0 it returns the Lab round trip of
the first input sample, which is black only if that sample is. -/
theorem C2_boundary_amended :
    (∀ hue : ℚ, scale_hue hue 0 = ⟨0, 0, 0⟩ ∧ scale_hue hue 1 = ⟨1, 1, 1⟩) ∧
    (∀ (data : List VRow) (d0 : VRow), data.head? = some d0 → 2 ≤ data.length →
      List.Chain' (· < ·) (data.map fun r => r.scalar) → d0.scalar = 0 →
      color_lookup_sRGBColor data 0 = some (convert_Lab_to_sRGB d0.lab_values)) := by
  refine ⟨fun hue => ⟨scale_hue_zero hue, scale_hue_one hue⟩, ?_⟩
  intro data d0 hhead hlen hchain h00
  cases data with
  | nil => simp at hhead
  | cons a l =>
    cases l with
    | nil => simp at hlen
    | cons b l2 =>
      have ha : a = d0 := by
        simp only [List.head?_cons] at hhead
        exact Option.some.inj hhead
      subst ha
      simp only [List.map_cons] at hchain
      have hab : a.scalar < b.scalar := (List.chain'_cons.mp hchain).1
      have hb0 : ¬ b.scalar < 0 := by
        rw [h00] at hab
        exact not_lt.mpr (le_of_lt hab)
      rw [color_lookup_sRGBColor, if_neg (lt_irrefl (0 : ℚ)), color_lookup_loop_cons_cons,
        if_neg hb0, if_neg (sub_ne_zero.mpr (ne_of_lt hab).symm)]
      have hinterp : (0 - a.scalar) / (b.scalar - a.scalar) = 0 := by
        rw [h00]
        simp
      rw [hinterp, lerp_lab_zero]

/-- C2 (witness): the interpolation-mode boundary behavior instantiated at
a concrete two-row table: the ramp at 0 is the round trip of the first
sample's Lab value. -/
theorem C2_witness :
    color_lookup_sRGBColor witness_table 0 =
      some (convert_Lab_to_sRGB (⟨50, 60, 70⟩ : Lab)) :=
  C2_boundary_amended.2 witness_table ⟨0, ⟨1, 0, 0⟩, ⟨50, 60, 70⟩⟩ rfl
    (le_of_eq (show (2 : ℕ) = witness_table.length from rfl))
    (by
      rw [show (witness_table.map fun r => r.scalar) = [0, 1] from rfl]
      exact List.chain'_cons.mpr ⟨by norm_num, List.chain'_singleton 1⟩)
    rfl

/-- C2 (counterexample): on the valid sorted two-sample table loaded from
(0, pure red), (1, pure white), the interpolated-from-samples ramp at
scalar exactly 0.0 is not pure black — it is the Lab round trip of pure
red — so boundary blackness fails for the interpolation mode. -/
theorem C2_counterexample :
    List.Chain' (· < ·) (red_white_table.map fun r => r.scalar) ∧
    color_lookup_sRGBColor red_white_table 0 ≠ some ⟨0, 0, 0⟩ := by
  constructor
  · rw [show (red_white_table.map fun r => r.scalar) = [0, 1] from rfl]
    exact List.chain'_cons.mpr ⟨by norm_num, List.chain'_singleton 1⟩
  · with_unfolding_all decide

/-- C3 (amended): the code contains no abort path for gamut exhaustion:
scale_hue is a total function, and when the binary search retains no safe
scale (low_scale = 0) it silently returns the sRGB conversion of the
zero-chroma Lab color at the target luminance instead of failing. -/
theorem C3_no_abort_amended (hue scalar : ℚ) (h0 : 0 < scalar) (h1 : scalar < 1)
    (hzero : scale_hue_scale hue scalar = 0) :
    scale_hue hue scalar = convert_Lab_to_sRGB ⟨100 * scalar, 0, 0⟩ := by
  rw [scale_hue, if_neg (not_le.mpr h0), if_neg (not_le.mpr h1), scale_hue_lab, hzero]
  norm_num

/-- unfolding one search iteration whose midpoint fails the safety test:
the upper bound halves and the retained low scale is unchanged. -/
lemma chroma_scale_search_step_false (P : ℚ → Bool) (n : ℕ) (lo hi : ℚ)
    (h : P ((hi - lo) / 2 + lo) = false) :
    chroma_scale_search P (n + 1) lo hi = chroma_scale_search P n lo ((hi - lo) / 2 + lo) := by
  show (if P ((hi - lo) / 2 + lo) then chroma_scale_search P n ((hi - lo) / 2 + lo) hi
    else chroma_scale_search P n lo ((hi - lo) / 2 + lo)) = _
  rw [h]
  simp

/-- at hue 0 and scalar 1 − 2⁻²⁰ every midpoint the search tests is
unsafe, so the search retains scale 0. -/
lemma scale_hue_scale_c3 : scale_hue_scale 0 (1048575 / 1048576) = 0 := by
  rw [scale_hue_scale]
  refine Eq.trans (chroma_scale_search_step_false _ 11 0 (1)
    (by with_unfolding_all decide)) ?_
  rw [show ((1 - 0 : ℚ) / 2 + 0) = 1 / 2 by norm_num]
  refine Eq.trans (chroma_scale_search_step_false _ 10 0 (1 / 2)
    (by with_unfolding_all decide)) ?_
  rw [show ((1 / 2 - 0 : ℚ) / 2 + 0) = 1 / 4 by norm_num]
  refine Eq.trans (chroma_scale_search_step_false _ 9 0 (1 / 4)
    (by with_unfolding_all decide)) ?_
  rw [show ((1 / 4 - 0 : ℚ) / 2 + 0) = 1 / 8 by norm_num]
  refine Eq.trans (chroma_scale_search_step_false _ 8 0 (1 / 8)
    (by with_unfolding_all decide)) ?_
  rw [show ((1 / 8 - 0 : ℚ) / 2 + 0) = 1 / 16 by norm_num]
  refine Eq.trans (chroma_scale_search_step_false _ 7 0 (1 / 16)
    (by with_unfolding_all decide)) ?_
  rw [show ((1 / 16 - 0 : ℚ) / 2 + 0) = 1 / 32 by norm_num]
  refine Eq.trans (chroma_scale_search_step_false _ 6 0 (1 / 32)
    (by with_unfolding_all decide)) ?_
  rw [show ((1 / 32 - 0 : ℚ) / 2 + 0) = 1 / 64 by norm_num]
  refine Eq.trans (chroma_scale_search_step_false _ 5 0 (1 / 64)
    (by with_unfolding_all decide)) ?_
  rw [show ((1 / 64 - 0 : ℚ) / 2 + 0) = 1 / 128 by norm_num]
  refine Eq.trans (chroma_scale_search_step_false _ 4 0 (1 / 128)
    (by with_unfolding_all decide)) ?_
  rw [show ((1 / 128 - 0 : ℚ) / 2 + 0) = 1 / 256 by norm_num]
  refine Eq.trans (chroma_scale_search_step_false _ 3 0 (1 / 256)
    (by with_unfolding_all decide)) ?_
  rw [show ((1 / 256 - 0 : ℚ) / 2 + 0) = 1 / 512 by norm_num]
  refine Eq.trans (chroma_scale_search_step_false _ 2 0 (1 / 512)
    (by with_unfolding_all decide)) ?_
  rw [show ((1 / 512 - 0 : ℚ) / 2 + 0) = 1 / 1024 by norm_num]
  refine Eq.trans (chroma_scale_search_step_false _ 1 0 (1 / 1024)
    (by with_unfolding_all decide)) ?_
  rw [show ((1 / 1024 - 0 : ℚ) / 2 + 0) = 1 / 2048 by norm_num]
  refine Eq.trans (chroma_scale_search_step_false _ 0 0 (1 / 2048)
    (by with_unfolding_all decide)) ?_
  rw [show ((1 / 2048 - 0 : ℚ) / 2 + 0) = 1 / 4096 by norm_num]
  rfl

/-- C3 (witness): the silent zero-chroma fallback instantiated at hue 0
and scalar 1 − 2⁻²⁰, where the search indeed retains scale 0. -/
theorem C3_witness :
    scale_hue 0 (1048575 / 1048576) =
      convert_Lab_to_sRGB ⟨100 * (1048575 / 1048576), 0, 0⟩ :=
  C3_no_abort_amended 0 (1048575 / 1048576) (by norm_num) (by norm_num) scale_hue_scale_c3

/-- C3 (counterexample): the gamut-exhaustion case does occur — at target
luminance 100·(1 − 2⁻²⁰) even the zero-chroma gray fails safe_color — yet
construction is not aborted: scale_hue produces a color, the conversion
of the zero-chroma Lab color, whose red channel even exceeds 1, silently
degrading quality instead of signaling a fatal error. -/
theorem C3_counterexample :
    safe_color ⟨100 * (1048575 / 1048576 : ℚ), 0, 0⟩ = false ∧
    scale_hue 0 (1048575 / 1048576) =
      convert_Lab_to_sRGB ⟨100 * (1048575 / 1048576 : ℚ), 0, 0⟩ ∧
    1 < (scale_hue 0 (1048575 / 1048576)).r := by
  have heq : scale_hue 0 (1048575 / 1048576) =
      convert_Lab_to_sRGB ⟨100 * (1048575 / 1048576 : ℚ), 0, 0⟩ := by
    rw [scale_hue, if_neg (by norm_num), if_neg (by norm_num), scale_hue_lab,
      scale_hue_scale_c3]
    norm_num
  refine ⟨by with_unfolding_all decide, heq, ?_⟩
  rw [heq]
  with_unfolding_all decide

lemma sample_lab_L_black : sample_lab_L ⟨0, 0, 0⟩ = 0 := by
  with_unfolding_all decide

lemma sample_lab_L_white_large : (9991 / 100 : ℚ) ≤ sample_lab_L ⟨1, 1, 1⟩ := by
  with_unfolding_all decide

lemma sample_lab_L_white_lt_100 : sample_lab_L ⟨1, 1, 1⟩ < 100 := by
  with_unfolding_all decide

lemma generation_L_zero (hue : ℚ) : generation_L hue 0 = 0 := by
  rw [generation_L, if_pos (Or.inl (le_refl (0 : ℚ))), scale_hue_zero, sample_lab_L_black]

lemma generation_L_one (hue : ℚ) : generation_L hue 1 = sample_lab_L ⟨1, 1, 1⟩ := by
  rw [generation_L, if_pos (Or.inr (le_refl (1 : ℚ))), scale_hue_one]

lemma generation_L_interior (hue s : ℚ) (h0 : 0 < s) (h1 : s < 1) :
    generation_L hue s = 100 * s := by
  rw [generation_L, if_neg (by push_neg; exact ⟨h0, h1⟩)]
  rfl

/-- evaluation of the generation-point L value at the j-th of n uniform
scalars: 0 at the black end, the white round-trip L at the top end, and
exactly 100·scalar in between. -/
lemma generation_L_eval (h : ℚ) (n j : ℕ) (h2 : 2 ≤ n) (hj : j + 1 ≤ n) :
    generation_L h ((j : ℚ) / ((n : ℚ) - 1)) =
      if j = 0 then 0
      else if j = n - 1 then sample_lab_L ⟨1, 1, 1⟩
      else 100 * ((j : ℚ) / ((n : ℚ) - 1)) := by
  have hm0 : (0 : ℚ) < (n : ℚ) - 1 := by
    have hc : (2 : ℚ) ≤ (n : ℚ) := by exact_mod_cast h2
    linarith
  by_cases hj0 : j = 0
  · subst hj0
    rw [if_pos rfl]
    simpa using generation_L_zero h
  · rw [if_neg hj0]
    by_cases hjn : j = n - 1
    · rw [if_pos hjn]
      have hcast : ((j : ℕ) : ℚ) = (n : ℚ) - 1 := by
        rw [hjn, Nat.cast_sub (by omega : 1 ≤ n)]
        norm_num
      rw [hcast, div_self (ne_of_gt hm0)]
      exact generation_L_one h
    · rw [if_neg hjn]
      have hj1 : 1 ≤ j := by omega
      have hjlt : j < n - 1 := by omega
      have h0s : 0 < (j : ℚ) / ((n : ℚ) - 1) := by
        apply div_pos _ hm0
        exact_mod_cast hj1
      have h1s : (j : ℚ) / ((n : ℚ) - 1) < 1 := by
        rw [div_lt_one hm0]
        have hc : ((j : ℕ) : ℚ) < ((n - 1 : ℕ) : ℚ) := by exact_mod_cast hjlt
        rw [Nat.cast_sub (by omega : 1 ≤ n), Nat.cast_one] at hc
        linarith
      exact generation_L_interior h _ h0s h1s

/-- one monotonicity step of the generation-point L values, for any pair
of hues, at table sizes up to 1024. -/
lemma generation_L_mono_step (hA hB : ℚ) (n i : ℕ) (h2 : 2 ≤ n) (h1024 : n ≤ 1024)
    (hi : i + 1 < n) :
    generation_L hA ((i : ℚ) / ((n : ℚ) - 1)) ≤
      generation_L hB (((i + 1 : ℕ) : ℚ) / ((n : ℚ) - 1)) := by
  have hm0 : (0 : ℚ) < (n : ℚ) - 1 := by
    have hc : (2 : ℚ) ≤ (n : ℚ) := by exact_mod_cast h2
    linarith
  have hLW0 : (0 : ℚ) ≤ sample_lab_L ⟨1, 1, 1⟩ := le_trans (by norm_num) sample_lab_L_white_large
  rw [generation_L_eval hA n i h2 (by omega), generation_L_eval hB n (i + 1) h2 (by omega),
    if_neg (by omega : ¬ i + 1 = 0)]
  have hine : ¬ i = n - 1 := by omega
  by_cases hi0 : i = 0
  · rw [if_pos hi0]
    by_cases h1n : i + 1 = n - 1
    · rw [if_pos h1n]
      exact hLW0
    · rw [if_neg h1n]
      positivity
  · rw [if_neg hi0, if_neg hine]
    by_cases h1n : i + 1 = n - 1
    · rw [if_pos h1n]
      have hieq : (i : ℚ) = (n : ℚ) - 2 := by
        have : i = n - 2 := by omega
        rw [this, Nat.cast_sub (by omega : 2 ≤ n)]
        norm_num
      have hnq : (n : ℚ) ≤ 1024 := by exact_mod_cast h1024
      have hfrac : ((n : ℚ) - 2) / ((n : ℚ) - 1) ≤ 1022 / 1023 := by
        rw [div_le_div_iff₀ hm0 (by norm_num : (0 : ℚ) < 1023)]
        linarith
      calc 100 * ((i : ℚ) / ((n : ℚ) - 1))
          ≤ 100 * (1022 / 1023) := by
            rw [hieq]
            have := hfrac
            linarith
        _ ≤ 9991 / 100 := by norm_num
        _ ≤ sample_lab_L ⟨1, 1, 1⟩ := sample_lab_L_white_large
    · rw [if_neg h1n]
      have hle : ((i : ℕ) : ℚ) ≤ ((i + 1 : ℕ) : ℚ) := by exact_mod_cast Nat.le_succ i
      gcongr

/-- C7 (amended): for every hue-sweep table of 2 to 1024 rows, the
generation-point Lab L values are non-decreasing along the table; at
every interior generation point the constructed Lab color has L exactly
100·scalar; the black endpoint has L exactly 0; but the white endpoint,
which bypasses Lab construction, has the L of the code's own round trip
of pure white — strictly below 100, not exactly 100. -/
theorem C7_monotone_luminance_amended (hue_array : List ℚ)
    (h2 : 2 ≤ hue_array.length) (h1024 : hue_array.length ≤ 1024) :
    List.Chain' (· ≤ ·)
      ((build_kindlmann_colors hue_array).map fun row => generation_L row.hue row.scalar) ∧
    (∀ row ∈ build_kindlmann_colors hue_array,
      0 < row.scalar → row.scalar < 1 → generation_L row.hue row.scalar = 100 * row.scalar) ∧
    (∀ hue : ℚ, generation_L hue 0 = 0 ∧ generation_L hue 1 = sample_lab_L ⟨1, 1, 1⟩) ∧
    sample_lab_L ⟨1, 1, 1⟩ < 100 := by
  refine ⟨?_, ?_, fun hue => ⟨generation_L_zero hue, generation_L_one hue⟩,
    sample_lab_L_white_lt_100⟩
  · rw [List.chain'_iff_get]
    intro i hi
    have hlenlin : (np_linspace 0 1 hue_array.length).length = hue_array.length := by
      rw [np_linspace, List.length_map, List.length_range]
    have hlenb : (build_kindlmann_colors hue_array).length = hue_array.length := by
      simp only [build_kindlmann_colors, List.length_map, List.length_zip, hlenlin,
        Nat.min_self]
    rw [List.length_map, hlenb] at hi
    simp only [List.get_eq_getElem, List.getElem_map, build_kindlmann_colors,
      List.getElem_zip, np_linspace, List.getElem_range]
    have hsc : ∀ j : ℕ, (0 : ℚ) + (1 - 0) * (j : ℚ) / ((hue_array.length : ℚ) - 1)
        = (j : ℚ) / ((hue_array.length : ℚ) - 1) := fun j => by ring
    rw [hsc i, hsc (i + 1)]
    exact generation_L_mono_step _ _ hue_array.length i h2 h1024 (by omega)
  · intro row _ h0 h1
    exact generation_L_interior row.hue row.scalar h0 h1

/-- C7 (witness): the amended monotone-luminance statement instantiated at
the two-hue table [300, 0]. -/
theorem C7_witness :
    List.Chain' (· ≤ ·)
      ((build_kindlmann_colors [300, 0]).map fun row => generation_L row.hue row.scalar) ∧
    (∀ row ∈ build_kindlmann_colors [300, 0],
      0 < row.scalar → row.scalar < 1 → generation_L row.hue row.scalar = 100 * row.scalar) ∧
    (∀ hue : ℚ, generation_L hue 0 = 0 ∧ generation_L hue 1 = sample_lab_L ⟨1, 1, 1⟩) ∧
    sample_lab_L ⟨1, 1, 1⟩ < 100 :=
  C7_monotone_luminance_amended [300, 0] (by simp) (by simp)

/-- C7 (counterexample): the claim's endpoint annotation fails: the white
endpoint sample (scalar 1) of a hue-sweep ramp is pure white, and pure
white's Lab L under the code's own sRGB → Lab conversion is strictly
below 100 — about 99.99998, because colormath's sRGB matrix rows do not
sum exactly to the reference white point — so the generated samples do
not have L = 100·scalar exactly at the top endpoint. -/
theorem C7_counterexample :
    scale_hue 0 1 = ⟨1, 1, 1⟩ ∧
    sample_lab_L ⟨1, 1, 1⟩ ≠ 100 ∧ sample_lab_L ⟨1, 1, 1⟩ < 100 :=
  ⟨scale_hue_one 0, ne_of_lt sample_lab_L_white_lt_100, sample_lab_L_white_lt_100⟩

/-- C1: the hue-sweep construction with start_hue 300 and end_hue 0,
evaluated at the 11 uniformly spaced scalars 0, 0.1, …, 1 with hues
descending in steps of 30 degrees (hue 300 paired with scalar 0, hue 0
with scalar 1), upscales to exactly the reference byte sequence. -/
theorem C1_hue_sweep_control_points :
    kindlmann_control_points.map (fun row => (row.hue, row.scalar, row.rgb255)) =
      [(300, 0, (0, 0, 0)), (270, 1 / 10, (46, 4, 76)), (240, 1 / 5, (63, 7, 145)),
        (210, 3 / 10, (8, 66, 165)), (180, 2 / 5, (5, 106, 106)), (150, 1 / 2, (7, 137, 69)),
        (120, 3 / 5, (8, 168, 26)), (90, 7 / 10, (84, 194, 9)), (60, 4 / 5, (196, 206, 10)),
        (30, 9 / 10, (252, 220, 197)), (0, 1, (255, 255, 255))] := by
  with_unfolding_all decide

end ColorAdvice
